import Mathlib

/-!
# Verification of the go-conversion-gen conversion synthesizer

A shallow embedding of `pkg/generator/generator.go` from the
`wk8/go-conversion-gen` repository, together with theorems settling the
frozen claims about it.

Modelling conventions:
* gengo `*types.Type` values are interned in a universe, so Go pointer
  equality between types coincides with structural equality of the finite
  type trees; we model types as a (mutual) inductive and compare them
  structurally.
* Code emission through a `SnippetWriter` is modelled as the ordered list of
  template strings passed to `sw.Do`; klog warnings and the per-function
  error lists are collected alongside, giving an `Output` record.
* Extension handlers (`MissingFieldsHandler`, ...) are optional functions in
  the environment returning the snippets they write plus an optional error.
* Repository code that is not under `src/` (the manual-conversions tracker's
  lookup, the layout arbiter, `isDirectlyAssignable`, `isFastConversion`,
  `findMember`, `unwrapAlias`, the naming layer) is modelled from the spec;
  each such definition carries a doc comment saying so.
-/

namespace ConvGen

/-- The gengo type kinds that `generator.go` dispatches on
(`types.Builtin`, `types.Map`, `types.Slice`, `types.Struct`,
`types.Pointer`, `types.Alias`, plus a default for every other kind). -/
inductive Kind : Type where
  | builtin
  | map
  | slice
  | struct
  | pointer
  | alias
  | other
deriving DecidableEq, Repr

/-- A gengo `types.Name`: package path plus simple name. -/
structure TypeName : Type where
  pkg : String
  name : String
deriving DecidableEq, Repr

mutual
/-- A gengo `types.Type`: kind, qualified name, comment lines, `Key` (for
maps), `Elem` (for maps/slices/pointers, and the `Underlying` of aliases),
and `Members` (for structs).  `nil` models a nil `*types.Type` pointer
(e.g. the `Elem` of a builtin). -/
inductive GoType : Type where
  | nil : GoType
  | mk : Kind → TypeName → List String → GoType → GoType → Members → GoType
deriving DecidableEq, Repr

/-- The member list of a struct type: each member carries its name, its
comment lines and its type (gengo `types.Member`). -/
inductive Members : Type where
  | mnil : Members
  | mcons : String → List String → GoType → Members → Members
deriving DecidableEq, Repr
end

/-- A struct member as a standalone record (a gengo `types.Member`),
as handed to extension handlers. -/
structure GoMember : Type where
  name : String
  comments : List String
  type : GoType
deriving DecidableEq, Repr

def GoType.kind : GoType → Kind
  | .nil => .other
  | .mk k _ _ _ _ _ => k

def GoType.name : GoType → TypeName
  | .nil => ⟨"", ""⟩
  | .mk _ n _ _ _ _ => n

def GoType.comments : GoType → List String
  | .nil => []
  | .mk _ _ c _ _ _ => c

def GoType.key : GoType → GoType
  | .nil => .nil
  | .mk _ _ _ k _ _ => k

def GoType.elem : GoType → GoType
  | .nil => .nil
  | .mk _ _ _ _ e _ => e

def GoType.members : GoType → Members
  | .nil => .mnil
  | .mk _ _ _ _ _ m => m

/-- Replace a type's name, keeping everything else
(models `copied := *underlying; copied.Name = t.Name`). -/
def GoType.withName : GoType → TypeName → GoType
  | .nil, _ => .nil
  | .mk k _ c key e m, n => .mk k n c key e m

def Members.toList : Members → List GoMember
  | .mnil => []
  | .mcons n c t rest => ⟨n, c, t⟩ :: rest.toList

/-- Render a gengo `types.Name` the way its `String()` method does
(`pkg.name`, or just `name` for package-less builtins); used in logged
warning texts. -/
def TypeName.render (n : TypeName) : String :=
  if n.pkg == "" then n.name else n.pkg ++ "." ++ n.name

/- ### Environment -/

/-- An extra conversion argument threaded through every generated and manual
function (a `NamedVariable` of
`ManualConversionsTracker.additionalConversionArguments`); only its name
shows up in emitted call sites, its type in signatures. -/
structure NamedArg : Type where
  name : String
  typeName : TypeName
deriving DecidableEq, Repr

/-- A manual conversion function registered with the tracker: a gengo
function `types.Type`, carrying its name and comment lines. -/
structure ManualFn : Type where
  name : TypeName
  comments : List String
deriving DecidableEq, Repr

/-- A `NamedVariable` as handed to extension handlers: a code fragment
naming the variable, plus its type. -/
structure NamedVar : Type where
  name : String
  type : GoType

/-- What an extension handler does: the snippets it writes into the
snippet writer, and the error it returns (if any). -/
abbrev HandlerResult := List String × Option String

/-- The generator's environment: the relevant `Options` fields plus the
internal state that `generateConversion` and its helpers read.
`manualConversions` is the tracker's index (spec §4.2: discovery registers
any signature-matching function irrespective of visibility, first
registration wins); `isDirectlyAssignable` is the assignability test used
by the generator (repository code not under `src/`, kept abstract since the
spec does not describe its internals and no claim depends on them). -/
structure Env : Type where
  tagName : String
  functionTagName : String
  noUnsafeConversions : Bool
  typesPackagePath : String
  manualConversions : List (GoType × GoType × ManualFn)
  additionalArgs : List NamedArg
  missingFieldsHandler : Option (NamedVar → NamedVar → GoMember → HandlerResult)
  inconvertibleFieldsHandler :
    Option (NamedVar → NamedVar → GoMember → GoMember → HandlerResult)
  unsupportedTypesHandler : Option (NamedVar → NamedVar → HandlerResult)
  externalConversionsHandler :
    Option (NamedVar → NamedVar → List String × Bool × Option String)
  isDirectlyAssignable : GoType → GoType → Bool

/- ### Comment-tag extraction -/

/-- Character-level `strings.HasPrefix`. -/
def strHasPre (s pat : String) : Bool :=
  pat.data.isPrefixOf s.data

/-- Drop the first `n` characters of a string. -/
def strDropN (s : String) (n : Nat) : String :=
  ⟨s.data.drop n⟩

/-- Split a string at every occurrence of the character `c`
(the behaviour of `strings.Split` for a one-character separator). -/
def splitChar (c : Char) (s : String) : List String :=
  let rec go : List Char → List Char → List String
    | [], acc => [⟨acc.reverse⟩]
    | x :: xs, acc =>
      if x == c then (⟨acc.reverse⟩ : String) :: go xs []
      else go xs (x :: acc)
  go s.data []

/-- `extractTag` composed with gengo's `types.ExtractCommentTags("+", ...)`:
collect the values `v` of comment lines of the form `+tagName=v`
(an empty tag name yields nothing, as in `extractTag`). -/
def extractTagValues (tagName : String) (comments : List String) : List String :=
  if tagName == "" then []
  else comments.filterMap fun line =>
    let pat := "+" ++ tagName ++ "="
    if strHasPre line pat then some (strDropN line pat.data.length) else none

/-- `Generator.hasTag`: some extracted value equals `value`. -/
def hasTag (env : Env) (comments : List String) (value : String) : Bool :=
  (extractTagValues env.tagName comments).any (fun v => v == value)

/-- `Generator.hasTagOption`: look for an extracted value of the form
`optionName:optionValue`. -/
def hasTagOption (env : Env) (comments : List String) (optionName : String) :
    Bool × String :=
  let rec go : List String → Bool × String
    | [] => (false, "")
    | v :: rest =>
      match splitChar ':' v with
      | [a, b] => if a == optionName then (true, b) else go rest
      | _ => go rest
  go (extractTagValues env.tagName comments)

/-- `Generator.optedOut` on a type: a `+tagName=false` comment tag. -/
def optedOutType (env : Env) (t : GoType) : Bool :=
  hasTag env t.comments "false"

/-- `Generator.optedOut` on a member: a `+tagName=false` comment tag. -/
def optedOutMember (env : Env) (m : GoMember) : Bool :=
  hasTag env m.comments "false"

/-- `Generator.noPublicFun`: a `+tagName=no-public` comment tag. -/
def noPublicFun (env : Env) (t : GoType) : Bool :=
  hasTag env t.comments "no-public"

/-- Modelled from the spec: the free function `functionHasTag` is not under
`src/`; per §4.2/§6 it checks the manual function's comments for a
`+functionTagName=value` directive. -/
def functionHasTag (env : Env) (fn : ManualFn) (value : String) : Bool :=
  (extractTagValues env.functionTagName fn.comments).any (fun v => v == value)

/-- Modelled from the spec: `ManualConversionsTracker.preexists` is not under
`src/`; per §4.2 it indexes manual conversion functions by
(sourceType, targetType), first-registered entry winning — a first-match
lookup over the registration list. -/
def preexists (env : Env) (inT outT : GoType) : Option ManualFn :=
  (env.manualConversions.find? fun e => e.1 == inT && e.2.1 == outT).map (·.2.2)

/-- gengo's `namer.IsPrivateGoName` (external library): empty, or the first
character is already lower case. -/
def isPrivateGoName (s : String) : Bool :=
  match s.data with
  | [] => true
  | c :: _ => c.toLower == c

/- ### Generator output -/

/-- What one run of a generator routine produces: the ordered template
strings written through the snippet writer, the klog warning/error log
lines, and the field-level error list it returns. -/
structure Output : Type where
  emits : List String
  warns : List String
  errs : List String
deriving DecidableEq, Repr

def Output.empty : Output := ⟨[], [], []⟩

/-- Concatenate outputs in order (matching sequential writes to the same
snippet writer and accumulation of the error slice). -/
def Output.cat (os : List Output) : Output :=
  os.foldr (fun a b => ⟨a.emits ++ b.emits, a.warns ++ b.warns, a.errs ++ b.errs⟩)
    Output.empty

/-- An output that only writes snippets. -/
def snips (ss : List String) : Output := ⟨ss, [], []⟩

/-- An output that only logs one warning. -/
def warnLog (s : String) : Output := ⟨[], [s], []⟩

/-- An output contributing the given handler-written snippets plus the
handler's error (if any) to the error list. -/
def handlerOut (r : HandlerResult) : Output :=
  ⟨r.1, [], r.2.toList⟩

/- ### Cross-package policy -/

/-- `Generator.convertibleOnlyWithinPackage` (generator.go:630-649): pick the
side that lives in the types package, require it to be there, not opted out,
of struct kind, and the other side's name to be exported. -/
def convertibleOnlyWithinPackage (env : Env) (inT outT : GoType) : Bool :=
  let p := if inT.name.pkg == env.typesPackagePath then (inT, outT) else (outT, inT)
  let t := p.1
  let other := p.2
  if !(t.name.pkg == env.typesPackagePath) then false
  else if optedOutType env t then false
  else t.kind == Kind.struct && !isPrivateGoName other.name.name

/- ### Alias unwrapping and the layout arbiter -/

mutual
/-- Structural size of a type tree, used as recursion fuel below. -/
def GoType.size : GoType → Nat
  | .nil => 1
  | .mk _ _ _ k e m => 1 + k.size + e.size + m.msize

/-- Structural size of a member list. -/
def Members.msize : Members → Nat
  | .mnil => 1
  | .mcons _ _ t r => 1 + t.size + r.msize
end

/-- Modelled from the spec: `unwrapAlias` is not under `src/`; per §3/§4.4 a
NamedAlias is treated as its underlying shape, so unwrapping follows the
`Elem` (underlying) chain while the kind is Alias. -/
def unwrapAlias : GoType → GoType
  | .nil => .nil
  | .mk k n c key e m =>
    if k == Kind.alias then unwrapAlias e else .mk k n c key e m

/-- generator.go:421-430: if the member type is an alias, work on a copy of
the underlying type renamed to the alias's (top-level) name. -/
def effectiveMemberType (t : GoType) : GoType :=
  let u := unwrapAlias t
  if u == t then t else u.withName t.name

mutual
/-- Modelled from the spec: the layout-equivalence arbiter
(`unsafeConversionArbitrator.canUseUnsafeConversion`) is not under `src/`.
Per §4.3: two types are layout-equivalent iff, recursively, every member of
A has a same-position counterpart in B of layout-equivalent type, and no
intervening manual conversion changes the bits (a non-copy-only manual
override disqualifies equivalence); Pointer/Sequence/Associative wrappers
are equivalent iff their element types are; aliases stand for their
underlying shape; builtins and other kinds must be the identical type.
Fuel-indexed (every recursive call strictly shrinks the pair). -/
def layoutEquivF : Nat → Env → GoType → GoType → Bool
  | 0, _, _, _ => false
  | n + 1, env, a, b =>
    (match preexists env a b with
     | some fn => functionHasTag env fn "copy-only"
     | none => true) &&
    (if a.kind == Kind.alias then layoutEquivF n env a.elem b
     else if b.kind == Kind.alias then layoutEquivF n env a b.elem
     else
       match a.kind, b.kind with
       | Kind.builtin, Kind.builtin => a == b
       | Kind.struct, Kind.struct => layoutEquivMembersF n env a.members b.members
       | Kind.pointer, Kind.pointer => layoutEquivF n env a.elem b.elem
       | Kind.slice, Kind.slice => layoutEquivF n env a.elem b.elem
       | Kind.map, Kind.map =>
         layoutEquivF n env a.key b.key && layoutEquivF n env a.elem b.elem
       | _, _ => a == b)

/-- Same-position member lists of layout-equivalent types (member order
matters, per §4.3). -/
def layoutEquivMembersF : Nat → Env → Members → Members → Bool
  | 0, _, _, _ => false
  | _ + 1, _, Members.mnil, Members.mnil => true
  | n + 1, env, Members.mcons _ _ t₁ r₁, Members.mcons _ _ t₂ r₂ =>
    layoutEquivF n env t₁ t₂ && layoutEquivMembersF n env r₁ r₂
  | _ + 1, _, _, _ => false
end

/-- Entry point of the spec-modelled arbiter, with enough fuel for the
finite recursion (every recursive call strictly shrinks the combined
structural size of the pair, so `size a + size b` steps always suffice). -/
def canUseUnsafeConversion (env : Env) (a b : GoType) : Bool :=
  layoutEquivF (a.size + b.size) env a b

/-- `Generator.useUnsafeConversion` (generator.go:717-719). -/
def useUnsafeConversion (env : Env) (a b : GoType) : Bool :=
  !env.noUnsafeConversions && canUseUnsafeConversion env a b

/-- Modelled from the spec: `isFastConversion` is not under `src/`; §4.2 and
§4.4 describe the copy-only gate as the layout arbiter confirming that the
two member types are bit-identical, so we reuse the arbiter's
layout-equivalence relation. -/
def isFastConversion (env : Env) (a b : GoType) : Bool :=
  canUseUnsafeConversion env a b

/-- Modelled from the spec: `findMember` is not under `src/`; §4.4 looks the
source member's name up among the target type's members. -/
def findMember (t : GoType) (memberName : String) : Option GoMember :=
  (t.members.toList.find? fun m => m.name == memberName)

/-- `Generator.extraArgumentsString` (generator.go:592-598). -/
def extraArgumentsString (env : Env) : String :=
  env.additionalArgs.foldl (fun acc a => acc ++ ", " ++ a.name) ""

/- ### Emission templates and namers -/

/-- The raw namer's key (generator.go:126). -/
def rawNamer : String := "ConversionGenerator_raw"

/-- The public import-tracking namer's key (generator.go:127). -/
def publicITNamer : String := "ConversionGenerator_publicIT"

/-- Modelled from the spec: `conversionFunctionNameTemplate` lives in the
naming layer, which is not under `src/` and is explicitly out of the spec's
core scope (§1, §2); per §6 the name is deterministic, derived from the
(sourceType, targetType) pair rendered through the given namer. -/
def conversionFunctionNameTemplate (namer : String) : String :=
  "Convert_$.inType|" ++ namer ++ "$_To_$.outType|" ++ namer ++ "$"

/-- The internal/public conversion function name template instantiated with
the public import-tracking namer, as used at every internal call site. -/
def cfnt : String := conversionFunctionNameTemplate publicITNamer

/- ### Per-kind generation (generator.go:265-598) -/

/-- `Generator.doBuiltin` (generator.go:289-296). -/
def doBuiltin (_env : Env) (inT outT : GoType) : Output :=
  if inT == outT then snips ["*out = *in\n"]
  else snips ["*out = $.|" ++ rawNamer ++ "$(*in)\n"]

/-- `Generator.doMap` (generator.go:298-350). -/
def doMap (env : Env) (inT outT : GoType) : Output :=
  Output.cat
    [snips ["*out = make($.|" ++ rawNamer ++ "$, len(*in))\n"],
     if env.isDirectlyAssignable inT.key outT.key then
       Output.cat
         [snips ["for key, val := range *in \x7b\n"],
          if env.isDirectlyAssignable inT.elem outT.elem then
            Output.cat
              [if inT.key == outT.key then snips ["(*out)[key] = "]
               else snips ["(*out)[$.|" ++ rawNamer ++ "$(key)] = "],
               if inT.elem == outT.elem then snips ["val\n"]
               else snips ["$.|" ++ rawNamer ++ "$(val)\n"]]
          else
            Output.cat
              [snips ["newVal := new($.|" ++ rawNamer ++ "$)\n"],
               (match preexists env inT.elem outT.elem with
                | some _ =>
                  snips ["if err := $.|" ++ rawNamer ++ "$(&val, newVal" ++
                           extraArgumentsString env ++ "); err != nil \x7b\n",
                         "return err\n\x7d\n"]
                | none =>
                  if convertibleOnlyWithinPackage env inT.elem outT.elem then
                    snips ["if err := " ++ cfnt ++ "(&val, newVal" ++
                             extraArgumentsString env ++ "); err != nil \x7b\n",
                           "return err\n\x7d\n"]
                  else
                    match env.externalConversionsHandler with
                    | none =>
                      warnLog (inT.name.render ++ "'s values of type " ++
                        inT.elem.name.render ++
                        " require manual conversion to external type " ++
                        outT.name.render)
                    | some h =>
                      let r := h ⟨"&val", inT.elem⟩ ⟨"newVal", outT.elem⟩
                      ⟨r.1, [], r.2.2.toList⟩),
               if inT.key == outT.key then snips ["(*out)[key] = *newVal\n"]
               else snips ["(*out)[$.|" ++ rawNamer ++ "$(key)] = *newVal\n"]]]
     else
       snips ["for range *in \x7b\n",
              "// FIXME: Converting unassignable keys unsupported $.|" ++
                rawNamer ++ "$\n"],
     snips ["\x7d\n"]]

/-- `Generator.doSlice` (generator.go:352-398). -/
def doSlice (env : Env) (inT outT : GoType) : Output :=
  Output.cat
    [snips ["*out = make($.|" ++ rawNamer ++ "$, len(*in))\n"],
     if inT.elem == outT.elem && inT.elem.kind == Kind.builtin then
       snips ["copy(*out, *in)\n"]
     else
       Output.cat
         [snips ["for i := range *in \x7b\n"],
          if env.isDirectlyAssignable inT.elem outT.elem then
            if inT.elem == outT.elem then snips ["(*out)[i] = (*in)[i]\n"]
            else snips ["(*out)[i] = $.|" ++ rawNamer ++ "$((*in)[i])\n"]
          else
            match preexists env inT.elem outT.elem with
            | some _ =>
              snips ["if err := $.|" ++ rawNamer ++ "$(&(*in)[i], &(*out)[i]" ++
                       extraArgumentsString env ++ "); err != nil \x7b\n",
                     "return err\n\x7d\n"]
            | none =>
              if convertibleOnlyWithinPackage env inT.elem outT.elem then
                snips ["if err := " ++ cfnt ++ "(&(*in)[i], &(*out)[i]" ++
                         extraArgumentsString env ++ "); err != nil \x7b\n",
                       "return err\n\x7d\n"]
              else
                match env.externalConversionsHandler with
                | none =>
                  Output.cat
                    [warnLog (inT.name.render ++ "'s items of type " ++
                       inT.name.render ++
                       " require manual conversion to external type " ++
                       outT.name.render),
                     snips ["_ = i\n"]]
                | some h =>
                  let r := h ⟨"&(*in)[i]", inT.elem⟩ ⟨"&(*out)[i]", outT.elem⟩
                  Output.cat
                    [⟨r.1, [], r.2.2.toList⟩,
                     if r.2.1 then Output.empty else snips ["_ = i\n"]],
          snips ["\x7d\n"]]]

/-- `Generator.doPointer` (generator.go:547-576). -/
def doPointer (env : Env) (inT outT : GoType) : Output :=
  Output.cat
    [snips ["*out = new($.Elem|" ++ rawNamer ++ "$)\n"],
     if env.isDirectlyAssignable inT.elem outT.elem then
       if inT.elem == outT.elem then snips ["**out = **in\n"]
       else snips ["**out = $.|" ++ rawNamer ++ "$(**in)\n"]
     else
       match preexists env inT.elem outT.elem with
       | some _ =>
         snips ["if err := $.|" ++ rawNamer ++ "$(*in, *out" ++
                  extraArgumentsString env ++ "); err != nil \x7b\n",
                "return err\n\x7d\n"]
       | none =>
         if convertibleOnlyWithinPackage env inT.elem outT.elem then
           snips ["if err := " ++ cfnt ++ "(*in, *out" ++
                    extraArgumentsString env ++ "); err != nil \x7b\n",
                  "return err\n\x7d\n"]
         else
           match env.externalConversionsHandler with
           | none =>
             warnLog (inT.name.render ++ "'s values of type " ++
               inT.elem.name.render ++
               " require manual conversion to external type " ++ outT.name.render)
           | some h =>
             let r := h ⟨"*in", inT⟩ ⟨"*out", outT⟩
             ⟨r.1, [], r.2.2.toList⟩]

/-- `Generator.doUnknown` (generator.go:583-590). -/
def doUnknown (env : Env) (inT outT : GoType) : Output :=
  match env.unsupportedTypesHandler with
  | none =>
    warnLog ("Don't know how to convert " ++ inT.name.name ++ " to " ++
      outT.name.name)
  | some h => handlerOut (h ⟨"in", inT⟩ ⟨"out", outT⟩)

/-- `Generator.doAlias` (generator.go:578-581): aliases are currently routed
through `doUnknown`. -/
def doAlias (env : Env) (inT outT : GoType) : Output :=
  doUnknown env inT outT

/-- `Generator.callExternalConversionsHandlerForStructField`
(generator.go:533-545). -/
def callExternalForField (env : Env) (inT outT inMT outMT : GoType)
    (m outMember : GoMember) : Output :=
  match env.externalConversionsHandler with
  | none =>
    warnLog (inT.name.render ++ "." ++ m.name ++
      " requires manual conversion to external type " ++ outT.name.render ++
      "." ++ outMember.name)
  | some h =>
    let r := h ⟨"&in." ++ m.name, inMT⟩ ⟨"&out." ++ outMember.name, outMT⟩
    ⟨r.1, [], r.2.2.toList⟩

/-- The part of the `doStruct` loop body after the unsafe fast path and the
manual-function check (generator.go:465-528): kind mismatch, then the
per-kind member conversion switch. -/
def doStructMemberRest (recurse : GoType → GoType → Output) (env : Env)
    (inT outT : GoType) (m outMember : GoMember) (inMT outMT : GoType) : Output :=
  if !(inMT.kind == outMT.kind) then
    match env.inconvertibleFieldsHandler with
    | none =>
      warnLog (inT.name.render ++ "." ++ m.name ++
        " requires manual conversion: inconvertible types: " ++
        inMT.name.render ++ " VS " ++ outMT.name.render ++ " for " ++
        outT.name.render ++ "." ++ outMember.name)
    | some h => handlerOut (h ⟨"in", inT⟩ ⟨"out", outT⟩ m outMember)
  else
    match inMT.kind with
    | Kind.builtin =>
      if inMT == outMT then snips ["out.$.name$ = in.$.name$\n"]
      else snips ["out.$.name$ = $.outType|" ++ rawNamer ++ "$(in.$.name$)\n"]
    | Kind.map =>
      if env.isDirectlyAssignable inMT outMT then
        snips ["out.$.name$ = in.$.name$\n"]
      else
        let inner := recurse inMT outMT
        Output.cat
          [snips ["if in.$.name$ != nil \x7b\n",
                  "in, out := &in.$.name$, &out.$.name$\n"],
           ⟨inner.emits, inner.warns, []⟩,
           snips ["\x7d else \x7b\n", "out.$.name$ = nil\n", "\x7d\n"]]
    | Kind.slice =>
      if env.isDirectlyAssignable inMT outMT then
        snips ["out.$.name$ = in.$.name$\n"]
      else
        let inner := recurse inMT outMT
        Output.cat
          [snips ["if in.$.name$ != nil \x7b\n",
                  "in, out := &in.$.name$, &out.$.name$\n"],
           ⟨inner.emits, inner.warns, []⟩,
           snips ["\x7d else \x7b\n", "out.$.name$ = nil\n", "\x7d\n"]]
    | Kind.pointer =>
      if env.isDirectlyAssignable inMT outMT then
        snips ["out.$.name$ = in.$.name$\n"]
      else
        let inner := recurse inMT outMT
        Output.cat
          [snips ["if in.$.name$ != nil \x7b\n",
                  "in, out := &in.$.name$, &out.$.name$\n"],
           ⟨inner.emits, inner.warns, []⟩,
           snips ["\x7d else \x7b\n", "out.$.name$ = nil\n", "\x7d\n"]]
    | Kind.struct =>
      if env.isDirectlyAssignable inMT outMT then
        snips ["out.$.name$ = in.$.name$\n"]
      else if convertibleOnlyWithinPackage env inMT outMT then
        snips ["if err := " ++ cfnt ++ "(&in.$.name$, &out.$.name$" ++
                 extraArgumentsString env ++ "); err != nil \x7b\n",
               "return err\n\x7d\n"]
      else callExternalForField env inT outT inMT outMT m outMember
    | Kind.alias =>
      if env.isDirectlyAssignable inMT outMT then
        if inMT == outMT then snips ["out.$.name$ = in.$.name$\n"]
        else snips ["out.$.name$ = $.outType|" ++ rawNamer ++ "$(in.$.name$)\n"]
      else if convertibleOnlyWithinPackage env inMT outMT then
        snips ["if err := " ++ cfnt ++ "(&in.$.name$, &out.$.name$" ++
                 extraArgumentsString env ++ "); err != nil \x7b\n",
               "return err\n\x7d\n"]
      else callExternalForField env inT outT inMT outMT m outMember
    | _ =>
      if convertibleOnlyWithinPackage env inMT outMT then
        snips ["if err := " ++ cfnt ++ "(&in.$.name$, &out.$.name$" ++
                 extraArgumentsString env ++ "); err != nil \x7b\n",
               "return err\n\x7d\n"]
      else callExternalForField env inT outT inMT outMT m outMember

/-- The unsafe raw-reinterpret fast path of the `doStruct` loop body
(generator.go:434-448): the templates emitted per member kind, when the
arbiter approves; `none` for every other kind (the switch falls through). -/
def unsafeFastPath (kind : Kind) : Option (List String) :=
  match kind with
  | Kind.pointer =>
    some ["out.$.name$ = ($.outType|" ++ rawNamer ++ "$)($.Pointer|" ++
            rawNamer ++ "$(in.$.name$))\n"]
  | Kind.map =>
    some ["out.$.name$ = *(*$.outType|" ++ rawNamer ++ "$)($.Pointer|" ++
            rawNamer ++ "$(&in.$.name$))\n"]
  | Kind.slice =>
    some ["out.$.name$ = *(*$.outType|" ++ rawNamer ++ "$)($.Pointer|" ++
            rawNamer ++ "$(&in.$.name$))\n"]
  | _ => none

/-- The manual-function step of the `doStruct` loop body
(generator.go:450-463), entered when the unsafe fast path was not taken: a
`drop`-tagged manual function skips the member outright; a manual function
that is not (`copy-only` and fast-convertible) is called; otherwise the
member falls through to the standard per-kind logic. -/
def doStructMemberManual (recurse : GoType → GoType → Output) (env : Env)
    (inT outT : GoType) (m outMember : GoMember) (inMT outMT : GoType) : Output :=
  match preexists env m.type outMember.type with
  | some fn =>
    if functionHasTag env fn "drop" then Output.empty
    else if !functionHasTag env fn "copy-only" ||
        !isFastConversion env inMT outMT then
      snips ["if err := $.function|" ++ rawNamer ++
               "$(&in.$.name$, &out.$.name$" ++ extraArgumentsString env ++
               "); err != nil \x7b\n",
             "return err\n", "\x7d\n"]
    else doStructMemberRest recurse env inT outT m outMember inMT outMT
  | none => doStructMemberRest recurse env inT outT m outMember inMT outMT

/-- One iteration of the `doStruct` member loop (generator.go:401-529). -/
def doStructMember (recurse : GoType → GoType → Output) (env : Env)
    (inT outT : GoType) (m : GoMember) : Output :=
  if optedOutMember env m then
    snips ["// INFO: in." ++ m.name ++ " opted out of conversion generation\n"]
  else
    match findMember outT m.name with
    | none =>
      match env.missingFieldsHandler with
      | none =>
        warnLog (inT.name.render ++ "." ++ m.name ++
          " requires manual conversion: does not exist in peer-type " ++
          outT.name.render)
      | some h => handlerOut (h ⟨"in", inT⟩ ⟨"out", outT⟩ m)
    | some outMember =>
      let inMT := effectiveMemberType m.type
      let outMT := effectiveMemberType outMember.type
      match
        (if useUnsafeConversion env inMT outMT then unsafeFastPath inMT.kind
         else none) with
      | some ss => snips ss
      | none => doStructMemberManual recurse env inT outT m outMember inMT outMT

/-- `Generator.doStruct` (generator.go:400-531): the member loop. -/
def doStruct (recurse : GoType → GoType → Output) (env : Env)
    (inT outT : GoType) : Output :=
  Output.cat (inT.members.toList.map (doStructMember recurse env inT outT))

/-- `Generator.generateFor` (generator.go:265-287), fuel-indexed: the
dispatch switch over `inType.Kind` choosing the per-kind handler. -/
def generateForF : Nat → Env → GoType → GoType → Output
  | 0, _, _, _ => Output.empty
  | n + 1, env, inT, outT =>
    match inT.kind with
    | Kind.builtin => doBuiltin env inT outT
    | Kind.map => doMap env inT outT
    | Kind.slice => doSlice env inT outT
    | Kind.struct => doStruct (generateForF n env) env inT outT
    | Kind.pointer => doPointer env inT outT
    | Kind.alias => doAlias env inT outT
    | Kind.other => doUnknown env inT outT

/-- `Generator.generateFor`.  Fuel 2 computes the exact Go semantics on
every input: the only recursive call site (generator.go:491) is reached
only for members whose (alias-unwrapped) kind is Map, Slice or Pointer, and
`doMap`/`doSlice`/`doPointer` make no further `generateFor` calls, so the
dynamic recursion depth never exceeds two. -/
def generateFor (env : Env) (inT outT : GoType) : Output :=
  generateForF 2 env inT outT

/-- The per-kind handlers `generateFor` can assign to its local `f`
(generator.go:267-284). -/
inductive HandlerId : Type where
  | hBuiltin
  | hMap
  | hSlice
  | hStruct
  | hPointer
  | hAlias
  | hUnknown
deriving DecidableEq, Repr

/-- The handler chosen by `generateFor` for a type pair: a transcription of
the `switch inType.Kind` statement (generator.go:269-284). -/
def chosenHandler (inT _outT : GoType) : HandlerId :=
  match inT.kind with
  | Kind.builtin => HandlerId.hBuiltin
  | Kind.map => HandlerId.hMap
  | Kind.slice => HandlerId.hSlice
  | Kind.struct => HandlerId.hStruct
  | Kind.pointer => HandlerId.hPointer
  | Kind.alias => HandlerId.hAlias
  | Kind.other => HandlerId.hUnknown

/-- The per-kind handler assignment as a closed, total function of a kind
(every kind, including the default arm, gets exactly one handler). -/
def handlerForKind : Kind → HandlerId
  | Kind.builtin => HandlerId.hBuiltin
  | Kind.map => HandlerId.hMap
  | Kind.slice => HandlerId.hSlice
  | Kind.struct => HandlerId.hStruct
  | Kind.pointer => HandlerId.hPointer
  | Kind.alias => HandlerId.hAlias
  | Kind.other => HandlerId.hUnknown

/-- Run one of the per-kind handlers (the call `f(inType, outType, sw)` at
generator.go:286), with `recurse` standing for the generator's own
`generateFor` as used by `doStruct`. -/
def runHandler (h : HandlerId) (recurse : GoType → GoType → Output)
    (env : Env) (inT outT : GoType) : Output :=
  match h with
  | HandlerId.hBuiltin => doBuiltin env inT outT
  | HandlerId.hMap => doMap env inT outT
  | HandlerId.hSlice => doSlice env inT outT
  | HandlerId.hStruct => doStruct recurse env inT outT
  | HandlerId.hPointer => doPointer env inT outT
  | HandlerId.hAlias => doAlias env inT outT
  | HandlerId.hUnknown => doUnknown env inT outT

/- ### Function emission (generator.go:195-260) -/

/-- `Generator.writeConversionFunctionSignature` (generator.go:239-260):
the ordered `sw.Do` templates of one signature write. -/
def writeConversionFunctionSignature (env : Env) (includeArgsTypes : Bool) :
    List String :=
  [cfnt] ++ ["(in"] ++
  (if includeArgsTypes then [" *$.inType|" ++ rawNamer ++ "$"] else []) ++
  [", out"] ++
  (if includeArgsTypes then [" *$.outType|" ++ rawNamer ++ "$"] else []) ++
  (env.additionalArgs.foldr
    (fun a acc =>
      [", " ++ a.name] ++
      (if includeArgsTypes then [" $.|" ++ rawNamer ++ "$"] else []) ++ acc)
    []) ++
  [")"] ++
  (if includeArgsTypes then [" error"] else [])

/-- The first phase of `Generator.generateConversion` (generator.go:196-206):
the private (`auto`-prefixed) conversion function — signature, body from
`generateFor`, and closing.  This phase runs unconditionally. -/
def privateConversionOutput (env : Env) (inT outT : GoType) : Output :=
  Output.cat
    [snips (["func auto"] ++ writeConversionFunctionSignature env true ++
            [" \x7b\n"]),
     generateFor env inT outT,
     snips ["return nil\n", "\x7d\n\n"]]

/-- The second phase of `Generator.generateConversion` (generator.go:208-234):
the public wrapper decision.  A preexisting manual conversion for the pair,
a `no-public` tag on either type, or a non-empty field-error list from the
body each suppress the wrapper (the last case logging klog error lines
instead); otherwise the wrapper is emitted. -/
def publicWrapperOutput (env : Env) (inT outT : GoType) (errs : List String) :
    Output :=
  if (preexists env inT outT).isSome then Output.empty
  else if noPublicFun env inT || noPublicFun env outT then Output.empty
  else if errs.isEmpty then
    snips (["// " ++ cfnt ++ " is an autogenerated conversion function.\nfunc "] ++
           writeConversionFunctionSignature env true ++
           [" \x7b\nreturn auto"] ++
           writeConversionFunctionSignature env false ++
           ["\n\x7d\n\n"])
  else
    ⟨[], ["Warning: could not find nor generate a final Conversion function for " ++
            inT.name.render ++ " -> " ++ outT.name.render,
          "  you need to add manual conversions:"] ++
         errs.map (fun e => "      - " ++ e), []⟩

/-- `Generator.generateConversion` (generator.go:195-234). -/
def generateConversion (env : Env) (inT outT : GoType) : Output :=
  Output.cat
    [privateConversionOutput env inT outT,
     publicWrapperOutput env inT outT (generateFor env inT outT).errs]

/- ### Peer resolution (generator.go:600-628) -/

/-- A gengo `types.Package` as the peer resolver sees it: its path, its
doc comments, and its named types. -/
structure Package : Type where
  path : String
  comments : List String
  types : List (String × GoType)

/-- `Package.Has(name)`. -/
def pkgHas (p : Package) (n : String) : Bool :=
  (p.types.find? fun e => e.1 == n).isSome

/-- `Package.Types[name]` (guarded by `Has` at the call site). -/
def pkgGet (p : Package) (n : String) : Option GoType :=
  (p.types.find? fun e => e.1 == n).map (·.2)

/-- Whether the package of the universe list at path `q` contains a type named `n`
(a missing package contains nothing, matching the `peerPkg != nil` guard). -/
def universeHas (univ : List Package) (q n : String) : Bool :=
  match univ.find? fun pk => pk.path == q with
  | some pkg => pkgHas pkg n
  | none => false

/-- Look the type named `n` up in the package of the universe list at path `q`. -/
def universeGet (univ : List Package) (q n : String) : Option GoType :=
  match univ.find? fun pk => pk.path == q with
  | some pkg => pkgGet pkg n
  | none => none

/-- The effective peer lookup name (generator.go:606-610): the simple name,
overridden by a non-empty `peerName` tag option. -/
def effectivePeerName (env : Env) (t : GoType) : String :=
  let r := hasTagOption env t.comments "peerName"
  if r.1 && !(r.2.length == 0) then r.2 else t.name.name

/-- The search loop of `GetPeerTypeFor` (generator.go:612-619): first peer
package (in declared order) containing the name wins. -/
def searchPeer (univ : List Package) (peerName : String) :
    List String → Option GoType
  | [] => none
  | q :: rest =>
    if universeHas univ q peerName then universeGet univ q peerName
    else searchPeer univ peerName rest

/-- `Generator.GetPeerTypeFor` (generator.go:600-628): consult the
`peerTypes` cache keyed by the simple name; on a miss, search the peer
packages and cache the result — including a "not found" `none`. -/
def getPeerTypeFor (env : Env) (univ : List Package)
    (peerPackages : List String) (cache : List (String × Option GoType))
    (t : GoType) : Option GoType × List (String × Option GoType) :=
  match cache.find? fun e => e.1 == t.name.name with
  | some e => (e.2, cache)
  | none =>
    let r := searchPeer univ (effectivePeerName env t) peerPackages
    (r, cache ++ [(t.name.name, r)])

/- ### Concrete fixtures used by witnesses and counterexamples -/

/-- The builtin `int`. -/
def tInt : GoType := .mk Kind.builtin ⟨"", "int"⟩ [] .nil .nil .mnil

/-- The builtin `string`. -/
def tStr : GoType := .mk Kind.builtin ⟨"", "string"⟩ [] .nil .nil .mnil

/-- `a.X`: a struct in the types package with one `int` member `F`. -/
def tAX : GoType := .mk Kind.struct ⟨"a", "X"⟩ [] .nil .nil (.mcons "F" [] tInt .mnil)

/-- `b.X`: the peer struct, same shape, in package `b`. -/
def tBX : GoType := .mk Kind.struct ⟨"b", "X"⟩ [] .nil .nil (.mcons "F" [] tInt .mnil)

/-- `b.Int`: an exported named builtin outside the types package. -/
def tBInt : GoType := .mk Kind.builtin ⟨"b", "Int"⟩ [] .nil .nil .mnil

/-- `a.P`: a pointer-to-int type in package `a`. -/
def tPA : GoType := .mk Kind.pointer ⟨"a", "P"⟩ [] .nil tInt .mnil

/-- `b.P`: a pointer-to-int type in package `b`. -/
def tPB : GoType := .mk Kind.pointer ⟨"b", "P"⟩ [] .nil tInt .mnil

/-- `a.AL`: an alias whose underlying type is the pointer `a.P`. -/
def tAliasP : GoType := .mk Kind.alias ⟨"a", "AL"⟩ [] .nil tPA .mnil

/-- `map[string]int` (identical builtin keys and elements on both sides). -/
def tMapSI : GoType := .mk Kind.map ⟨"a", "M"⟩ [] tStr tInt .mnil

/-- A map with `int` keys, used to build an unassignable-keys pair. -/
def tMapIK : GoType := .mk Kind.map ⟨"a", "MI"⟩ [] tInt tInt .mnil

/-- A map with `string` keys, used to build an unassignable-keys pair. -/
def tMapSK : GoType := .mk Kind.map ⟨"b", "MS"⟩ [] tStr tInt .mnil

/-- `[]int` in package `a`. -/
def tSliceI : GoType := .mk Kind.slice ⟨"a", "SL"⟩ [] .nil tInt .mnil

/-- A baseline environment: tag name `gen`, unsafe conversions enabled, no
manual conversions, no extra arguments, no handlers, and structural
equality as the direct-assignability test. -/
def baseEnv : Env :=
  { tagName := "gen", functionTagName := "gen", noUnsafeConversions := false,
    typesPackagePath := "a", manualConversions := [], additionalArgs := [],
    missingFieldsHandler := none, inconvertibleFieldsHandler := none,
    unsupportedTypesHandler := none, externalConversionsHandler := none,
    isDirectlyAssignable := fun a b => a == b }

/-- A manual conversion function for `a.P -> b.P` tagged both `drop` and
`copy-only`. -/
def fnDropCopy : ManualFn :=
  ⟨⟨"a", "Convert_a_P_To_b_P"⟩, ["+gen=drop", "+gen=copy-only"]⟩

/-- A manual conversion function for `a.P -> b.P` tagged `drop` only. -/
def fnDrop : ManualFn := ⟨⟨"a", "Convert_a_P_To_b_P"⟩, ["+gen=drop"]⟩

/-- A manual conversion function for `int -> string` tagged `copy-only`. -/
def fnCopyOnly : ManualFn := ⟨⟨"a", "Convert_int_To_string"⟩, ["+gen=copy-only"]⟩

/-- A non-exported (private) manual conversion function covering the
`a.X -> b.X` pair; per spec §4.2 tracker discovery is signature-based,
"irrespective of visibility", so such an entry is realizable. -/
def fnPriv : ManualFn := ⟨⟨"a", "convert_a_X_To_b_X"⟩, []⟩

/-- Struct pair whose `F` members are the pointers `a.P` / `b.P`. -/
def tSP : GoType := .mk Kind.struct ⟨"a", "SP"⟩ [] .nil .nil (.mcons "F" [] tPA .mnil)

/-- Peer of `tSP`. -/
def tSPOut : GoType := .mk Kind.struct ⟨"b", "SP"⟩ [] .nil .nil (.mcons "F" [] tPB .mnil)

/-- The `F` member of `tSP`. -/
def mFP : GoMember := ⟨"F", [], tPA⟩

/-- Struct with an `int` member `F` (source side for the copy-only tests). -/
def tSI : GoType := .mk Kind.struct ⟨"a", "SI"⟩ [] .nil .nil (.mcons "F" [] tInt .mnil)

/-- Peer whose `F` member is a `string`. -/
def tSIOut : GoType := .mk Kind.struct ⟨"b", "SI"⟩ [] .nil .nil (.mcons "F" [] tStr .mnil)

/-- The `F` member of `tSI`. -/
def mFI : GoMember := ⟨"F", [], tInt⟩

/-- Struct pair whose `F` members are both the alias `a.AL` (over `a.P`). -/
def tSA : GoType := .mk Kind.struct ⟨"a", "SA"⟩ [] .nil .nil (.mcons "F" [] tAliasP .mnil)

/-- Peer of `tSA`. -/
def tSAOut : GoType := .mk Kind.struct ⟨"b", "SA"⟩ [] .nil .nil (.mcons "F" [] tAliasP .mnil)

/-- The `F` member of `tSA`, of Alias kind. -/
def mFA : GoMember := ⟨"F", [], tAliasP⟩

/-- The `F` member of `tSPOut` (type `b.P`). -/
def mFPB : GoMember := ⟨"F", [], tPB⟩

/-- The `F` member of `tSIOut` (type `string`). -/
def mFS : GoMember := ⟨"F", [], tStr⟩

/-- Environment registering the drop-and-copy-only function for `a.P -> b.P`. -/
def envDropCopy : Env := { baseEnv with manualConversions := [(tPA, tPB, fnDropCopy)] }

/-- Environment registering the drop-only function for `a.P -> b.P`. -/
def envDrop : Env := { baseEnv with manualConversions := [(tPA, tPB, fnDrop)] }

/-- Environment registering the copy-only function for `int -> string`. -/
def envCopyOnly : Env := { baseEnv with manualConversions := [(tInt, tStr, fnCopyOnly)] }

/-- Environment registering the private manual function for `a.X -> b.X`. -/
def envPriv : Env := { baseEnv with manualConversions := [(tAX, tBX, fnPriv)] }

/-- Environment with a `MissingFieldsHandler` that records an error. -/
def envMissHandler : Env :=
  { baseEnv with missingFieldsHandler := some (fun _ _ _ => ([], some "missing F")) }

/-- A peer struct with no members at all (so member `F` is missing). -/
def tNoF : GoType := .mk Kind.struct ⟨"b", "NF"⟩ [] .nil .nil .mnil

/-- Example package `b` exposing the peer type `X`. -/
def egPkgB : Package := ⟨"b", [], [("X", tBX)]⟩

/-- Example universe with only package `b` materialized. -/
def egUniv : List Package := [egPkgB]

/-- Example peer-package list: `c` (not in the universe) before `b`. -/
def egPps : List String := ["c", "b"]

/- ## Helper lemmas -/

/-- Unfolding of the fuel-indexed dispatch: at any nonzero fuel,
`generateFor` runs the handler chosen by the `switch` on the source type's
kind (generator.go:269-286). -/
theorem generateForF_succ (n : Nat) (env : Env) (inT outT : GoType) :
    generateForF (n + 1) env inT outT =
      runHandler (chosenHandler inT outT) (generateForF n env) env inT outT := by
  cases inT with
  | nil => rfl
  | mk k nm c key e m => cases k <;> rfl

/-- The handler chosen by the dispatch switch depends only on the source
type's kind. -/
theorem chosenHandler_eq (inT outT : GoType) :
    chosenHandler inT outT = handlerForKind inT.kind := by
  cases inT with
  | nil => rfl
  | mk k nm c key e m => cases k <;> rfl

/-- An error of a constituent output survives into the concatenation. -/
theorem Output.cat_errs_mem (os : List Output) (o : Output) (ho : o ∈ os)
    (e : String) (he : e ∈ o.errs) : e ∈ (Output.cat os).errs := by
  induction os with
  | nil => cases ho
  | cons a rest ih =>
    rcases List.mem_cons.mp ho with h | h
    · subst h
      exact List.mem_append.mpr (Or.inl he)
    · exact List.mem_append.mpr (Or.inr (ih h))

/- ## Claims -/

/-- **C4** (amended): for every type pair handed to the recursive body
generator `generateFor`, the choice of per-kind handler is a closed switch
on the *source* type's kind (`inType.Kind`, generator.go:269), not the
target's: `handlerForKind` assigns every kind — the default arm included —
exactly one handler, and `generateFor` runs the handler assigned to the
source type's kind. -/
theorem c4_dispatch_on_source_kind (env : Env) (inT outT : GoType) :
    chosenHandler inT outT = handlerForKind inT.kind ∧
    generateFor env inT outT =
      runHandler (handlerForKind inT.kind) (generateForF 1 env) env inT outT := by
  refine ⟨chosenHandler_eq inT outT, ?_⟩
  have h := generateForF_succ 1 env inT outT
  rw [chosenHandler_eq inT outT] at h
  exact h

/-- **C4** counterexample: at the concrete pair `(int, b.X)` the dispatch
picks the Builtin handler, following the *source* type's kind, although the
target type's kind is Struct — so the choice of handler is not a switch on
the target type's kind. -/
theorem c4_target_kind_cex :
    chosenHandler tInt tBX = HandlerId.hBuiltin ∧
    handlerForKind tBX.kind = HandlerId.hStruct ∧
    HandlerId.hBuiltin ≠ HandlerId.hStruct ∧
    generateFor baseEnv tInt tBX = doBuiltin baseEnv tInt tBX := by
  exact ⟨rfl, rfl, by decide, rfl⟩

/-- **C9** (amended): `convertibleOnlyWithinPackage` permits an internal
recursive call iff the side of the pair that is chosen as belonging to the
configured types package (the source if its package matches, else the
target) does belong to it, has not opted out via the tag, and is of Record
(struct) kind, and the *other* side's simple name is not a non-exported Go
name.  Only the in-package side's kind is checked; the other side of the
pair need not be of Record kind. -/
theorem c9_within_package_iff (env : Env) (inT outT : GoType) :
    convertibleOnlyWithinPackage env inT outT = true ↔
      ((if inT.name.pkg == env.typesPackagePath then inT else outT).name.pkg =
          env.typesPackagePath ∧
       optedOutType env
           (if inT.name.pkg == env.typesPackagePath then inT else outT) = false ∧
       (if inT.name.pkg == env.typesPackagePath then inT else outT).kind =
          Kind.struct ∧
       isPrivateGoName
           (if inT.name.pkg == env.typesPackagePath then outT else inT).name.name =
          false) := by
  unfold convertibleOnlyWithinPackage
  by_cases h : inT.name.pkg == env.typesPackagePath
  · have heq : inT.name.pkg = env.typesPackagePath := eq_of_beq h
    by_cases h2 : optedOutType env inT
    · simp [h, h2, heq]
    · simp [h, h2, heq, Bool.and_eq_true, beq_iff_eq, Bool.not_eq_true']
  · by_cases h3 : outT.name.pkg == env.typesPackagePath
    · have heq3 : outT.name.pkg = env.typesPackagePath := eq_of_beq h3
      by_cases h2 : optedOutType env outT
      · simp [h, h3, h2, heq3]
      · simp [h, h3, h2, heq3, Bool.and_eq_true, beq_iff_eq, Bool.not_eq_true']
    · have hne3 : ¬outT.name.pkg = env.typesPackagePath := by
        intro hq
        exact h3 (by simp [hq])
      simp [h, h3, hne3]

/-- **C9** counterexample: for the pair `(a.X, b.Int)` — a struct of the
types package against an exported named *builtin* of another package — the
function permits an internal recursive call although the pair is not of
Record kind (the target's kind is Builtin). -/
theorem c9_pair_kind_cex :
    convertibleOnlyWithinPackage baseEnv tAX tBInt = true ∧
    tAX.kind = Kind.struct ∧
    tBInt.kind ≠ Kind.struct := by
  refine ⟨by decide, rfl, by decide⟩

/-- **C5** (amended): a Sequence (slice) pair with identical builtin element
types gets a single bulk `copy` of the container with no per-element loop
(generator.go:354-356); an Associative (map) pair, however, is always
converted by a per-entry `range` loop — for identical, directly-assignable
builtin keys and elements the loop body is a plain per-entry assignment,
and no bulk copy is ever emitted for maps (generator.go:299-311). -/
theorem c5_slice_bulk_copy_map_loop (env : Env) (inT outT mIn mOut : GoType)
    (hel : inT.elem = outT.elem) (hbk : inT.elem.kind = Kind.builtin)
    (hmk : mIn.key = mOut.key) (hme : mIn.elem = mOut.elem)
    (hka : env.isDirectlyAssignable mIn.key mOut.key = true)
    (hea : env.isDirectlyAssignable mIn.elem mOut.elem = true) :
    doSlice env inT outT =
      snips ["*out = make($.|" ++ rawNamer ++ "$, len(*in))\n",
             "copy(*out, *in)\n"] ∧
    doMap env mIn mOut =
      snips ["*out = make($.|" ++ rawNamer ++ "$, len(*in))\n",
             "for key, val := range *in \x7b\n",
             "(*out)[key] = ", "val\n", "\x7d\n"] := by
  constructor
  · unfold doSlice
    rw [hel] at hbk ⊢
    simp [hbk, Output.cat, snips, Output.empty]
  · unfold doMap
    rw [hmk] at hka ⊢
    rw [hme] at hea ⊢
    simp [hka, hea, Output.cat, snips, Output.empty]

/-- **C5** witness: `[]int -> []int` bulk-copies;
`map[string]int -> map[string]int` loops per entry. -/
theorem c5_slice_bulk_copy_map_loop_witness :
    doSlice baseEnv tSliceI tSliceI =
      snips ["*out = make($.|" ++ rawNamer ++ "$, len(*in))\n",
             "copy(*out, *in)\n"] ∧
    doMap baseEnv tMapSI tMapSI =
      snips ["*out = make($.|" ++ rawNamer ++ "$, len(*in))\n",
             "for key, val := range *in \x7b\n",
             "(*out)[key] = ", "val\n", "\x7d\n"] :=
  c5_slice_bulk_copy_map_loop baseEnv tSliceI tSliceI tMapSI tMapSI rfl rfl rfl rfl
    (by decide) (by decide)

/-- **C5** counterexample: `map[string]int` has identical builtin key and
element types on both sides, yet the emitted conversion strategy is a
per-entry `range` loop and no bulk `copy` of the container appears. -/
theorem c5_map_loop_cex :
    tMapSI.elem = tInt ∧ tInt.kind = Kind.builtin ∧
    doMap baseEnv tMapSI tMapSI =
      snips ["*out = make($.|" ++ rawNamer ++ "$, len(*in))\n",
             "for key, val := range *in \x7b\n",
             "(*out)[key] = ", "val\n", "\x7d\n"] ∧
    ¬"copy(*out, *in)\n" ∈ (doMap baseEnv tMapSI tMapSI).emits := by
  refine ⟨rfl, rfl, by decide, by decide⟩

/-- **C6** (amended): for an Associative pair whose key types are not
directly assignable, `doMap` emits the allocation plus a clearly marked
(`FIXME` comment) non-functional stub loop, contributes no field-level
error — and logs no warning either: the marker comment inside the generated
code is the only diagnostic (generator.go:342-346). -/
theorem c6_unassignable_keys_stub (env : Env) (inT outT : GoType)
    (h : env.isDirectlyAssignable inT.key outT.key = false) :
    doMap env inT outT =
      snips ["*out = make($.|" ++ rawNamer ++ "$, len(*in))\n",
             "for range *in \x7b\n",
             "// FIXME: Converting unassignable keys unsupported $.|" ++
               rawNamer ++ "$\n",
             "\x7d\n"] := by
  unfold doMap
  simp [h, Output.cat, snips, Output.empty]

/-- **C6** witness: the `map[int]int -> map[string]int` pair (keys not
directly assignable) yields exactly the marked stub and nothing else. -/
theorem c6_unassignable_keys_stub_witness :
    doMap baseEnv tMapIK tMapSK =
      snips ["*out = make($.|" ++ rawNamer ++ "$, len(*in))\n",
             "for range *in \x7b\n",
             "// FIXME: Converting unassignable keys unsupported $.|" ++
               rawNamer ++ "$\n",
             "\x7d\n"] :=
  c6_unassignable_keys_stub baseEnv tMapIK tMapSK (by decide)

/-- **C6** counterexample: in the unassignable-keys case the warning list is
empty — the generator emits the stub but logs no warning, contradicting the
claimed "logs a warning". -/
theorem c6_no_warning_cex :
    baseEnv.isDirectlyAssignable tMapIK.key tMapSK.key = false ∧
    (doMap baseEnv tMapIK tMapSK).warns = [] ∧
    (doMap baseEnv tMapIK tMapSK).errs = [] ∧
    "// FIXME: Converting unassignable keys unsupported $.|" ++ rawNamer ++
        "$\n" ∈ (doMap baseEnv tMapIK tMapSK).emits := by
  refine ⟨by decide, by decide, by decide, by decide⟩

/-- **C1** (amended): `generateConversion` always emits the private (`auto`)
conversion function, and emits the public wrapper iff no preexisting manual
conversion — of *any* visibility, tracker discovery being signature-based
and visibility-blind (spec §4.2) — covers the pair, neither type carries
the `no-public` tag, and body generation returned zero field-level errors;
in every other case only the private function is emitted (plus klog error
lines when there were field errors). -/
theorem c1_wrapper_emission (env : Env) (inT outT : GoType) :
    (privateConversionOutput env inT outT).emits.head? = some "func auto" ∧
    generateConversion env inT outT =
      Output.cat [privateConversionOutput env inT outT,
        publicWrapperOutput env inT outT (generateFor env inT outT).errs] ∧
    ((publicWrapperOutput env inT outT (generateFor env inT outT).errs).emits ≠ [] ↔
      (preexists env inT outT = none ∧ noPublicFun env inT = false ∧
       noPublicFun env outT = false ∧ (generateFor env inT outT).errs = [])) := by
  refine ⟨?_, rfl, ?_⟩
  · simp [privateConversionOutput, Output.cat, snips, Output.empty]
  · unfold publicWrapperOutput
    cases hpre : preexists env inT outT with
    | some fn => simp [Output.empty]
    | none =>
      cases hin : noPublicFun env inT with
      | true => simp [Output.empty]
      | false =>
        cases hout : noPublicFun env outT with
        | true => simp [Output.empty]
        | false =>
          cases he : (generateFor env inT outT).errs with
          | nil => simp [snips]
          | cons a l => simp

/-- **C1** counterexample: the `a.X -> b.X` pair is covered only by a
*private* manual conversion function (no `no-public` tags, zero field
errors), so no preexisting *public* manual conversion covers the pair —
yet the public wrapper is still suppressed. -/
theorem c1_public_qualifier_cex :
    isPrivateGoName fnPriv.name.name = true ∧
    preexists envPriv tAX tBX = some fnPriv ∧
    noPublicFun envPriv tAX = false ∧
    noPublicFun envPriv tBX = false ∧
    (generateFor envPriv tAX tBX).errs = [] ∧
    (publicWrapperOutput envPriv tAX tBX (generateFor envPriv tAX tBX).errs).emits
      = [] := by
  refine ⟨by decide, by decide, by decide, by decide, by decide, by decide⟩

/-- **C2** (amended): a record member whose declared type pair has a
`drop`-tagged manual conversion function is skipped entirely — no emitted
code, no warning, no field error — *provided* the member does not first
qualify for the unsafe raw-reinterpret fast path (generator.go:434-448),
which is checked before the manual-function lookup and takes precedence. -/
theorem c2_drop_skips_member (recurse : GoType → GoType → Output) (env : Env)
    (inT outT : GoType) (m outMember : GoMember) (fn : ManualFn)
    (hopt : optedOutMember env m = false)
    (hfind : findMember outT m.name = some outMember)
    (hfast : (if useUnsafeConversion env (effectiveMemberType m.type)
          (effectiveMemberType outMember.type) then
        unsafeFastPath (effectiveMemberType m.type).kind
      else none) = none)
    (hpre : preexists env m.type outMember.type = some fn)
    (hdrop : functionHasTag env fn "drop" = true) :
    doStructMember recurse env inT outT m = Output.empty := by
  unfold doStructMember doStructMemberManual
  simp [hopt, hfind, hfast, hpre, hdrop]

/-- **C2** witness: the `a.P`-typed member `F` with a drop-only manual
function is skipped outright (the drop-tagged, non-copy-only override also
disqualifies layout equivalence, so the fast path is not taken). -/
theorem c2_drop_skips_member_witness :
    doStructMember (generateForF 1 envDrop) envDrop tSP tSPOut mFP =
      Output.empty :=
  c2_drop_skips_member (generateForF 1 envDrop) envDrop tSP tSPOut mFP mFPB
    fnDrop (by decide) (by decide) (by decide) (by decide) (by decide)

/-- **C2** counterexample: member `F` has a manual conversion function
tagged `drop` (and also `copy-only`), yet the synthesizer emits the unsafe
raw-reinterpret fast path for it: generator.go checks the fast path
(434-448) before the drop directive (451-453), and a copy-only-tagged
override does not disqualify layout equivalence (spec §4.3), so code *is*
emitted for the dropped member. -/
theorem c2_drop_cex :
    functionHasTag envDropCopy fnDropCopy "drop" = true ∧
    preexists envDropCopy mFP.type mFPB.type = some fnDropCopy ∧
    doStructMember (generateForF 1 envDropCopy) envDropCopy tSP tSPOut mFP =
      snips ["out.$.name$ = ($.outType|" ++ rawNamer ++ "$)($.Pointer|" ++
               rawNamer ++ "$(in.$.name$))\n"] := by
  refine ⟨by decide, by decide, by decide⟩

/-- **C3** (amended): a `copy-only`-tagged (non-`drop`) manual conversion
function for a member's type pair is invoked exactly when the member types
are *not* confirmed layout-equivalent; when the arbiter confirms
equivalence, the manual function is skipped and the member falls through to
the standard field-level logic (generator.go:455-462) — the inverse of the
claimed direction. -/
theorem c3_copy_only_inverted (recurse : GoType → GoType → Output) (env : Env)
    (inT outT : GoType) (m outMember : GoMember) (fn : ManualFn)
    (hopt : optedOutMember env m = false)
    (hfind : findMember outT m.name = some outMember)
    (hfast : (if useUnsafeConversion env (effectiveMemberType m.type)
          (effectiveMemberType outMember.type) then
        unsafeFastPath (effectiveMemberType m.type).kind
      else none) = none)
    (hpre : preexists env m.type outMember.type = some fn)
    (hdrop : functionHasTag env fn "drop" = false)
    (hcopy : functionHasTag env fn "copy-only" = true) :
    doStructMember recurse env inT outT m =
      (if isFastConversion env (effectiveMemberType m.type)
          (effectiveMemberType outMember.type) then
        doStructMemberRest recurse env inT outT m outMember
          (effectiveMemberType m.type) (effectiveMemberType outMember.type)
      else
        snips ["if err := $.function|" ++ rawNamer ++
                 "$(&in.$.name$, &out.$.name$" ++ extraArgumentsString env ++
                 "); err != nil \x7b\n",
               "return err\n", "\x7d\n"]) := by
  unfold doStructMember doStructMemberManual
  cases hf : isFastConversion env (effectiveMemberType m.type)
      (effectiveMemberType outMember.type) with
  | true => simp [hopt, hfind, hfast, hpre, hdrop, hcopy, hf]
  | false => simp [hopt, hfind, hfast, hpre, hdrop, hcopy, hf]

/-- **C3** witness: at the concrete `int`-vs-`string` member with a
copy-only manual function, the pair is not layout-equivalent and the
manual function is invoked. -/
theorem c3_copy_only_inverted_witness :
    doStructMember (generateForF 1 envCopyOnly) envCopyOnly tSI tSIOut mFI =
      (if isFastConversion envCopyOnly (effectiveMemberType mFI.type)
          (effectiveMemberType mFS.type) then
        doStructMemberRest (generateForF 1 envCopyOnly) envCopyOnly tSI tSIOut
          mFI mFS (effectiveMemberType mFI.type) (effectiveMemberType mFS.type)
      else
        snips ["if err := $.function|" ++ rawNamer ++
                 "$(&in.$.name$, &out.$.name$" ++
                 extraArgumentsString envCopyOnly ++ "); err != nil \x7b\n",
               "return err\n", "\x7d\n"]) :=
  c3_copy_only_inverted (generateForF 1 envCopyOnly) envCopyOnly tSI tSIOut
    mFI mFS fnCopyOnly (by decide) (by decide) (by decide) (by decide)
    (by decide) (by decide)

/-- **C3** counterexample: the member pair `int -> string` has a `copy-only`
manual conversion function and is *not* layout-equivalent — yet the manual
function *is* invoked, refuting "invoked only when the two member types are
confirmed layout-equivalent". -/
theorem c3_copy_only_cex :
    functionHasTag envCopyOnly fnCopyOnly "copy-only" = true ∧
    functionHasTag envCopyOnly fnCopyOnly "drop" = false ∧
    preexists envCopyOnly mFI.type mFS.type = some fnCopyOnly ∧
    isFastConversion envCopyOnly mFI.type mFS.type = false ∧
    canUseUnsafeConversion envCopyOnly mFI.type mFS.type = false ∧
    doStructMember (generateForF 1 envCopyOnly) envCopyOnly tSI tSIOut mFI =
      snips ["if err := $.function|" ++ rawNamer ++
               "$(&in.$.name$, &out.$.name$); err != nil \x7b\n",
             "return err\n", "\x7d\n"] := by
  refine ⟨by decide, by decide, by decide, by decide, by decide, by decide⟩

/-- **C10** (amended): when the unsafe-conversion check approves a member's
(alias-unwrapped) type pair, the raw-reinterpret fast path is emitted
exactly when the member's *effective* kind — after alias unwrapping at
generator.go:421-430 — is Pointer, Map or Slice; every other effective kind
falls through to the normal manual-function/per-kind logic, even when
unsafe conversions are enabled.  (In particular a member of declared Alias
kind whose underlying kind is Pointer, Map or Slice *does* receive the
fast path; see the counterexample.) -/
theorem c10_unsafe_fast_path_kinds (recurse : GoType → GoType → Output)
    (env : Env) (inT outT : GoType) (m outMember : GoMember)
    (hopt : optedOutMember env m = false)
    (hfind : findMember outT m.name = some outMember) :
    (∀ ss, unsafeFastPath (effectiveMemberType m.type).kind = some ss →
      useUnsafeConversion env (effectiveMemberType m.type)
        (effectiveMemberType outMember.type) = true →
      doStructMember recurse env inT outT m = snips ss) ∧
    (unsafeFastPath (effectiveMemberType m.type).kind = none →
      doStructMember recurse env inT outT m =
        doStructMemberManual recurse env inT outT m outMember
          (effectiveMemberType m.type) (effectiveMemberType outMember.type)) ∧
    (useUnsafeConversion env (effectiveMemberType m.type)
        (effectiveMemberType outMember.type) = false →
      doStructMember recurse env inT outT m =
        doStructMemberManual recurse env inT outT m outMember
          (effectiveMemberType m.type) (effectiveMemberType outMember.type)) ∧
    (∀ k, unsafeFastPath k = none ↔
      (k ≠ Kind.pointer ∧ k ≠ Kind.map ∧ k ≠ Kind.slice)) := by
  refine ⟨?_, ?_, ?_, ?_⟩
  · intro ss hss happ
    unfold doStructMember
    simp [hopt, hfind, happ, hss]
  · intro hnone
    unfold doStructMember
    cases hu : useUnsafeConversion env (effectiveMemberType m.type)
        (effectiveMemberType outMember.type) with
    | true => simp [hopt, hfind, hu, hnone]
    | false => simp [hopt, hfind, hu]
  · intro hu
    unfold doStructMember
    simp [hopt, hfind, hu]
  · intro k
    cases k <;> simp [unsafeFastPath]

/-- **C10** witness: the pointer-typed member `F` (`a.P` vs `b.P`, layouts
approved) receives the pointer fast-path template. -/
theorem c10_unsafe_fast_path_kinds_witness :
    doStructMember (generateForF 1 baseEnv) baseEnv tSP tSPOut mFP =
      snips ["out.$.name$ = ($.outType|" ++ rawNamer ++ "$)($.Pointer|" ++
               rawNamer ++ "$(in.$.name$))\n"] :=
  (c10_unsafe_fast_path_kinds (generateForF 1 baseEnv) baseEnv tSP tSPOut mFP
      mFPB (by decide) (by decide)).1 _ (by decide) (by decide)

/-- **C10** counterexample: member `F` of `tSA` is of declared *Alias* kind
(an alias over the pointer `a.P`), the unsafe check approves its unwrapped
pair, and the raw-reinterpret pointer fast path *is* emitted for it —
refuting "members of Builtin, Struct, Alias, or any other kind never
receive the unsafe fast path". -/
theorem c10_alias_cex :
    mFA.type.kind = Kind.alias ∧
    useUnsafeConversion baseEnv (effectiveMemberType mFA.type)
      (effectiveMemberType mFA.type) = true ∧
    doStructMember (generateForF 1 baseEnv) baseEnv tSA tSAOut mFA =
      snips ["out.$.name$ = ($.outType|" ++ rawNamer ++ "$)($.Pointer|" ++
               rawNamer ++ "$(in.$.name$))\n"] := by
  refine ⟨rfl, by decide, by decide⟩

/-- **C7**: missing-member handling (generator.go:407-416) and its effect on
wrapper visibility (218-234): with no `MissingFieldsHandler`, the member
contributes exactly one logged warning and no snippet and no field error;
with a handler returning an error, the member contributes exactly that one
field error (plus whatever the handler wrote), the error reaches the
pair's field-error list, any non-empty error list suppresses the public
wrapper, and the private function is emitted regardless. -/
theorem c7_missing_fields (recurse : GoType → GoType → Output) (env : Env)
    (inT outT : GoType) (m : GoMember)
    (hopt : optedOutMember env m = false)
    (hmiss : findMember outT m.name = none) :
    (env.missingFieldsHandler = none →
      doStructMember recurse env inT outT m =
        warnLog (inT.name.render ++ "." ++ m.name ++
          " requires manual conversion: does not exist in peer-type " ++
          outT.name.render)) ∧
    (∀ h em e, env.missingFieldsHandler = some h →
      h ⟨"in", inT⟩ ⟨"out", outT⟩ m = (em, some e) →
      doStructMember recurse env inT outT m = ⟨em, [], [e]⟩) ∧
    (∀ h em e, env.missingFieldsHandler = some h →
      h ⟨"in", inT⟩ ⟨"out", outT⟩ m = (em, some e) →
      inT.kind = Kind.struct → m ∈ inT.members.toList →
      e ∈ (generateFor env inT outT).errs) ∧
    (∀ errs : List String, errs ≠ [] →
      (publicWrapperOutput env inT outT errs).emits = []) ∧
    (privateConversionOutput env inT outT).emits.head? = some "func auto" := by
  refine ⟨?_, ?_, ?_, ?_, ?_⟩
  · intro hnone
    unfold doStructMember
    simp [hopt, hmiss, hnone]
  · intro h em e hh hr
    unfold doStructMember
    simp [hopt, hmiss, hh, hr, handlerOut]
  · intro h em e hh hr hk hm
    have h2 : doStructMember (generateForF 1 env) env inT outT m =
        ⟨em, [], [e]⟩ := by
      unfold doStructMember
      simp [hopt, hmiss, hh, hr, handlerOut]
    cases inT with
    | nil => exact absurd hk (by simp [GoType.kind])
    | mk k nm c key el mem =>
      have hk2 : k = Kind.struct := hk
      subst hk2
      show e ∈ (doStruct (generateForF 1 env) env
          (GoType.mk Kind.struct nm c key el mem) outT).errs
      unfold doStruct
      refine Output.cat_errs_mem _
        (doStructMember (generateForF 1 env) env
          (GoType.mk Kind.struct nm c key el mem) outT m) ?_ e ?_
      · exact List.mem_map.mpr ⟨m, hm, rfl⟩
      · rw [h2]
        exact List.mem_singleton.mpr rfl
  · intro errs hne
    unfold publicWrapperOutput
    split
    · rfl
    · split
      · rfl
      · split
        · rename_i hemp
          exact absurd (by simpa using hemp) hne
        · rfl
  · simp [privateConversionOutput, Output.cat, snips, Output.empty]

/-- **C7** witness: member `F` of `a.SI` is missing from the peer `b.NF`;
with no handler it yields only the warning; with the erroring handler it
yields exactly one field error, which reaches the pair's error list and
suppresses the public wrapper. -/
theorem c7_missing_fields_witness :
    doStructMember (generateForF 1 baseEnv) baseEnv tSI tNoF mFI =
      warnLog (tSI.name.render ++ "." ++ mFI.name ++
        " requires manual conversion: does not exist in peer-type " ++
        tNoF.name.render) ∧
    doStructMember (generateForF 1 envMissHandler) envMissHandler tSI tNoF mFI =
      ⟨[], [], ["missing F"]⟩ ∧
    "missing F" ∈ (generateFor envMissHandler tSI tNoF).errs ∧
    (publicWrapperOutput envMissHandler tSI tNoF
        (generateFor envMissHandler tSI tNoF).errs).emits = [] := by
  have hbase := c7_missing_fields (generateForF 1 baseEnv) baseEnv tSI tNoF mFI
    (by decide) (by decide)
  have hmh := c7_missing_fields (generateForF 1 envMissHandler) envMissHandler
    tSI tNoF mFI (by decide) (by decide)
  refine ⟨hbase.1 rfl, hmh.2.1 _ [] "missing F" rfl rfl, ?_, ?_⟩
  · exact hmh.2.2.1 _ [] "missing F" rfl rfl rfl (by decide)
  · refine hmh.2.2.2.1 _ ?_
    exact List.ne_nil_of_mem (hmh.2.2.1 _ [] "missing F" rfl rfl rfl (by decide))

/-- A lookup that misses a list finds a freshly appended entry. -/
theorem find?_append_fresh {α : Type} (l : List (String × α)) (k : String)
    (v : α) (h : l.find? (fun e => e.1 == k) = none) :
    (l ++ [(k, v)]).find? (fun e => e.1 == k) = some (k, v) := by
  induction l with
  | nil => simp [List.find?]
  | cons a rest ih =>
    rw [List.cons_append]
    cases hpa : (a.1 == k) with
    | true =>
      rw [List.find?] at h
      simp [hpa] at h
    | false =>
      rw [List.find?] at h
      simp only [hpa] at h
      rw [List.find?]
      simp only [hpa]
      exact ih h

/-- **C8**: the peer resolver (generator.go:600-628).
(a) Caching: resolving a type again right after a resolution returns the
same result and leaves the cache untouched — the cached entry (present even
for a "not found" result) short-circuits any new search.
(b) On a cache miss, the result is the ordered search of the peer packages
under the effective lookup name (the simple name, overridden by a non-empty
`peerName` tag option), and the result — found or not — is appended to the
cache under the simple name.
(c) The search takes the first declared peer package containing the name:
either the package list splits as `pre ++ p :: rest` with no package of
`pre` containing the name, `p` containing it, and the result looked up in
`p`; or no listed package contains the name and the result is `none`. -/
theorem c8_peer_resolution (env : Env) (univ : List Package)
    (pps : List String) (cache : List (String × Option GoType)) (t : GoType) :
    (getPeerTypeFor env univ pps (getPeerTypeFor env univ pps cache t).2 t =
      getPeerTypeFor env univ pps cache t) ∧
    (cache.find? (fun e => e.1 == t.name.name) = none →
      getPeerTypeFor env univ pps cache t =
        (searchPeer univ (effectivePeerName env t) pps,
         cache ++ [(t.name.name,
           searchPeer univ (effectivePeerName env t) pps)])) ∧
    (∀ nm, (∃ pre p rest, pps = pre ++ p :: rest ∧
        (∀ q ∈ pre, universeHas univ q nm = false) ∧
        universeHas univ p nm = true ∧
        searchPeer univ nm pps = universeGet univ p nm) ∨
      ((∀ q ∈ pps, universeHas univ q nm = false) ∧
        searchPeer univ nm pps = none)) := by
  refine ⟨?_, ?_, ?_⟩
  · unfold getPeerTypeFor
    cases hc : cache.find? (fun e => e.1 == t.name.name) with
    | some e => simp [hc]
    | none =>
      simp only [hc]
      rw [find?_append_fresh _ _ _ hc]
  · intro h
    unfold getPeerTypeFor
    simp [h]
  · intro nm
    induction pps with
    | nil =>
      right
      exact ⟨fun q hq => absurd hq (List.not_mem_nil q), rfl⟩
    | cons p rest ih =>
      cases hp : universeHas univ p nm with
      | true =>
        left
        refine ⟨[], p, rest, rfl, fun q hq => absurd hq (List.not_mem_nil q),
          hp, ?_⟩
        unfold searchPeer
        simp [hp]
      | false =>
        rcases ih with ⟨pre, p2, rest2, heq, hpre, hp2, hs⟩ | ⟨hall, hs⟩
        · left
          refine ⟨p :: pre, p2, rest2, by rw [heq, List.cons_append], ?_, hp2, ?_⟩
          · intro q hq
            rcases List.mem_cons.mp hq with h | h
            · subst h
              exact hp
            · exact hpre q h
          · unfold searchPeer
            simp [hp, hs]
        · right
          refine ⟨?_, ?_⟩
          · intro q hq
            rcases List.mem_cons.mp hq with h | h
            · subst h
              exact hp
            · exact hall q h
          · unfold searchPeer
            simp [hp, hs]

/-- **C8** witness: resolving `a.X` against peer packages `["c", "b"]`
(only `b` materialized, containing `X`) searches past `c`, finds `b.X`,
caches it, and a second resolution returns the same result with the cache
unchanged. -/
theorem c8_peer_resolution_witness :
    getPeerTypeFor baseEnv egUniv egPps [] tAX =
      (searchPeer egUniv (effectivePeerName baseEnv tAX) egPps,
       [] ++ [(tAX.name.name,
         searchPeer egUniv (effectivePeerName baseEnv tAX) egPps)]) ∧
    (getPeerTypeFor baseEnv egUniv egPps [] tAX).1 = some tBX ∧
    getPeerTypeFor baseEnv egUniv egPps
        (getPeerTypeFor baseEnv egUniv egPps [] tAX).2 tAX =
      getPeerTypeFor baseEnv egUniv egPps [] tAX := by
  have h := c8_peer_resolution baseEnv egUniv egPps [] tAX
  exact ⟨h.2.1 (by decide), by decide, h.1⟩

end ConvGen
